import Mathlib

/-!
A shallow embedding of the jobs/workers CRUD service (src/flask_app.py) and
proofs about its query/filter/pagination/sort pipeline, its write handlers and
its statistics endpoint.

Conventions of the embedding:
* The persistent store is a pair of lists (`Store.jobs`, `Store.workers`) kept
  in insertion order; SQLite assigns ids from an increasing counter
  (`nextJobId`, `nextWorkerId`) and a plain table scan returns rows in id
  order, so the list order of a store built through the API is id-ascending.
* Calendar dates are encoded as the natural number `y*10000 + m*100 + d`; the
  encoding is strictly monotone in (y, m, d) for the range `strptime` accepts,
  so `Nat` order coincides with date order.
* Query-string parameters arrive already converted the way Flask's
  `request.args.get(key, type=int)` converts them: a missing key or a value
  `int` rejects is `none`.
* Python truthiness on strings (`if not data.get('name')`) is `truthy`:
  missing or empty means falsy.
* `query.paginate(page=…, per_page=…, error_out=False)` follows
  flask-sqlalchemy: a page below 1 is clamped to 1 and a per_page below 1
  falls back to 20, while the handler echoes the raw values in the envelope.
* Exceptions that escape a handler's `try` are its blanket
  `except Exception` answer: status 500 with the session rolled back, which
  leaves the store unchanged.
-/

/-! ## Character and string helpers -/

/-- Value of a non-empty all-digit character list, running accumulator. -/
def digitsValAux : List Char → Nat → Option Nat
  | [], acc => some acc
  | c :: cs, acc => if c.isDigit then digitsValAux cs (acc * 10 + (c.toNat - 48)) else none

/-- Value of a character list that consists of at least one digit and digits only. -/
def digitsVal : List Char → Option Nat
  | [] => none
  | cs => digitsValAux cs 0

/-- Split a character list at every dash, keeping empty pieces. -/
def splitDash : List Char → List (List Char)
  | [] => [[]]
  | c :: rest =>
    let r := splitDash rest
    if c = '-' then [] :: r
    else
      match r with
      | h :: t => (c :: h) :: t
      | [] => [[c]]

/-- ASCII lowercasing of a string, as a character list; SQLite's LIKE folds
only ASCII letters, matching `Char.toLower`. -/
def lowerChars (s : String) : List Char := s.toList.map Char.toLower

/-- Does the second list start with the first? -/
def startsWithL : List Char → List Char → Bool
  | [], _ => true
  | _ :: _, [] => false
  | a :: as, b :: bs => a == b && startsWithL as bs

/-- Does the needle occur as a contiguous run of the haystack? -/
def infixOfL (nd : List Char) : List Char → Bool
  | [] => nd.isEmpty
  | hay@(_ :: t) => startsWithL nd hay || infixOfL nd t

/-- Case-insensitive containment: the SQL pattern made by
`column.ilike(f'%{needle}%')` against `hay`. -/
def containsCI (hay needle : String) : Bool := infixOfL (lowerChars needle) (lowerChars hay)

/-- Python truthiness of an optional string (`if not data.get(key)`). -/
def truthy : Option String → Bool
  | none => false
  | some s => !(s == "")

/-! ## Dates: `parse_date` and formatting -/

def isLeap (y : Nat) : Bool := (y % 4 == 0 && !(y % 100 == 0)) || y % 400 == 0

def daysInMonth (y m : Nat) : Nat :=
  if m = 2 then (if isLeap y then 29 else 28)
  else if m = 4 ∨ m = 6 ∨ m = 9 ∨ m = 11 then 30
  else if 1 ≤ m ∧ m ≤ 12 then 31
  else 0

/-- datetime.strptime(s, '%Y-%m-%d') when it succeeds: exactly three
dash-separated digit groups, the year exactly four digits, month and day at
most two, and the triple a real calendar date. A failing parse is `none`,
the helper's `except ValueError` branch. -/
def parse_date (s : String) : Option Nat :=
  match splitDash s.toList with
  | [ys, ms, ds] =>
    match digitsVal ys, digitsVal ms, digitsVal ds with
    | some y, some m, some d =>
      if ys.length = 4 ∧ 1 ≤ y ∧ ms.length ≤ 2 ∧ 1 ≤ m ∧ m ≤ 12 ∧
         ds.length ≤ 2 ∧ 1 ≤ d ∧ d ≤ daysInMonth y m
      then some (y * 10000 + m * 100 + d) else none
    | _, _, _ => none
  | _ => none

def pad2 (n : Nat) : String := if n < 10 then "0" ++ toString n else toString n

def pad4 (n : Nat) : String :=
  if n < 10 then "000" ++ toString n
  else if n < 100 then "00" ++ toString n
  else if n < 1000 then "0" ++ toString n
  else toString n

/-- strftime('%Y-%m-%d') on an encoded date. -/
def formatDate (d : Nat) : String :=
  pad4 (d / 10000) ++ "-" ++ pad2 (d / 100 % 100) ++ "-" ++ pad2 (d % 100)

/-! ## Data model -/

/-- A row of the Job table. -/
structure Job where
  id : Int
  name : String
  customer : String
  start_date : Option Nat
  end_date : Option Nat
  status : Option String
deriving DecidableEq

/-- A row of the Worker table. -/
structure Worker where
  id : Int
  name : String
  role : String
  job_id : Option Int
deriving DecidableEq

/-- The persistent state: both tables in insertion (hence id) order, plus the
autoincrement counters. -/
structure Store where
  jobs : List Job
  workers : List Worker
  nextJobId : Int
  nextWorkerId : Int
deriving DecidableEq

/-- The empty database right after `db.create_all()`. -/
def st0 : Store := { jobs := [], workers := [], nextJobId := 1, nextWorkerId := 1 }

/-! ## Wire records (`format_job`, `format_worker`) -/

structure JobRec where
  id : Int
  name : String
  customer : String
  startDate : Option String
  endDate : Option String
  status : Option String
  workerCount : Nat
deriving DecidableEq

structure WorkerRec where
  id : Int
  name : String
  role : String
  jobId : Option Int
deriving DecidableEq

/-- len(job.workers): the workers whose foreign key names this job. -/
def workerCountOf (st : Store) (jid : Int) : Nat :=
  (st.workers.filter (fun w => w.job_id == some jid)).length

def format_job (st : Store) (j : Job) : JobRec :=
  { id := j.id, name := j.name, customer := j.customer,
    startDate := j.start_date.map formatDate, endDate := j.end_date.map formatDate,
    status := j.status, workerCount := workerCountOf st j.id }

def format_worker (w : Worker) : WorkerRec :=
  { id := w.id, name := w.name, role := w.role, jobId := w.job_id }

/-! ## GET /jobs: filters, sorting, pagination -/

/-- Query-string parameters of GET /jobs after Flask's conversion. -/
structure JobsParams where
  name : Option String := none
  customer : Option String := none
  status : Option String := none
  startAfter : Option String := none
  endBefore : Option String := none
  sortBy : Option String := none
  order : Option String := none
  page : Option Int := none
  limit : Option Int := none
deriving DecidableEq

/-- The conjunction of the five optional filters. Each one is skipped when its
parameter is missing or empty (walrus truthiness); a date filter is also
skipped when `parse_date` fails; a NULL column never satisfies a comparison. -/
def jobMatches (p : JobsParams) (j : Job) : Bool :=
  (match p.name with
   | none => true
   | some s => if s == "" then true else containsCI j.name s) &&
  (match p.customer with
   | none => true
   | some s => if s == "" then true else containsCI j.customer s) &&
  (match p.status with
   | none => true
   | some s => if s == "" then true else j.status == some s) &&
  (match p.startAfter with
   | none => true
   | some s =>
     if s == "" then true else
       match parse_date s with
       | none => true
       | some d => match j.start_date with | none => false | some x => decide (d ≤ x)) &&
  (match p.endBefore with
   | none => true
   | some s =>
     if s == "" then true else
       match parse_date s with
       | none => true
       | some d => match j.end_date with | none => false | some x => decide (x ≤ d))

def filterJobs (st : Store) (p : JobsParams) : List Job := st.jobs.filter (jobMatches p)

/-- Sort key of the start_date column: NULLs come first under ascending order. -/
def sdKey (j : Job) : WithBot Nat :=
  match j.start_date with | none => ⊥ | some d => (d : WithBot Nat)

/-- Sort key of the end_date column. -/
def edKey (j : Job) : WithBot Nat :=
  match j.end_date with | none => ⊥ | some d => (d : WithBot Nat)

/-- Sort key of the status column. -/
def stKey (j : Job) : WithBot String :=
  match j.status with | none => ⊥ | some s => (s : WithBot String)

/-- ORDER BY one key, ascending or descending. -/
def sortKey {K : Type} [LinearOrder K] (key : Job → K) (descend : Bool)
    (l : List Job) : List Job :=
  if descend then
    @List.insertionSort Job (fun a b => key b ≤ key a)
      (fun a b => inferInstanceAs (Decidable (key b ≤ key a))) l
  else
    @List.insertionSort Job (fun a b => key a ≤ key b)
      (fun a b => inferInstanceAs (Decidable (key a ≤ key b))) l

def validSortCols : List String := ["name", "customer", "start_date", "end_date", "status"]

/-- getattr(Job, sort_by) and order_by: only the five known column names sort;
anything else leaves the scan order alone. -/
def sortJobs (c : String) (descend : Bool) (l : List Job) : List Job :=
  if c = "name" then sortKey (fun j => j.name) descend l
  else if c = "customer" then sortKey (fun j => j.customer) descend l
  else if c = "start_date" then sortKey sdKey descend l
  else if c = "end_date" then sortKey edKey descend l
  else if c = "status" then sortKey stKey descend l
  else l

/-- The filtered rows, ordered: `request.args.get('sortBy', 'id')` defaults the
column name to 'id', which is not in the allowed list, so no ORDER BY is
emitted and the scan order (id ascending) stands. -/
def sortedJobs (st : Store) (p : JobsParams) : List Job :=
  let c := p.sortBy.getD "id"
  if c ∈ validSortCols then sortJobs c (p.order == some "desc") (filterJobs st p)
  else filterJobs st p

/-- Result of `query.paginate(page, per_page, error_out=False)`. -/
structure Paginated (α : Type) where
  items : List α
  total : Nat
  pages : Nat
deriving DecidableEq

/-- flask-sqlalchemy pagination with error_out=False: page below 1 becomes 1,
per_page below 1 becomes 20, items are the slice, total the unsliced count,
pages the ceiling of total over per_page (0 when the result set is empty). -/
def paginate {α : Type} (rows : List α) (page per_page : Int) : Paginated α :=
  let p : Int := if page < 1 then 1 else page
  let pp : Int := if per_page < 1 then 20 else per_page
  { items := (rows.drop ((p.toNat - 1) * pp.toNat)).take pp.toNat
    total := rows.length
    pages := if rows.length = 0 then 0 else (rows.length + pp.toNat - 1) / pp.toNat }

/-- The pagination envelope the handlers serialize, echoing the raw page and
limit parameters. -/
structure PageEnv where
  page : Int
  perPage : Int
  total : Nat
  pages : Nat
deriving DecidableEq

structure JobsResponse where
  status : Nat
  jobs : List Job
  pagination : Option PageEnv
deriving DecidableEq

/-- `if page and per_page:` — pagination runs only when both converted to a
nonzero integer (Python truthiness on int); otherwise the whole result set is
returned with no envelope. -/
def pageEnvOf (rows : List Job) (page limit : Option Int) : List Job × Option PageEnv :=
  match page, limit with
  | some pg, some lim =>
    if pg ≠ 0 ∧ lim ≠ 0 then
      let pag := paginate rows pg lim
      (pag.items, some { page := pg, perPage := lim, total := pag.total, pages := pag.pages })
    else (rows, none)
  | _, _ => (rows, none)

/-- GET /jobs. The handler cannot raise on any store, so it always answers
200; `jobs` is kept as rows here and formatting is applied by `jobsBody`. -/
def get_jobs (st : Store) (p : JobsParams) : JobsResponse :=
  let pe := pageEnvOf (sortedJobs st p) p.page p.limit
  { status := 200, jobs := pe.1, pagination := pe.2 }

/-- The serialized `jobs` array of a GET /jobs response. -/
def jobsBody (st : Store) (p : JobsParams) : List JobRec :=
  (get_jobs st p).jobs.map (format_job st)

/-! ## POST /jobs -/

/-- The JSON body of POST /jobs; a missing key is `none`. -/
structure JobInput where
  name : Option String := none
  customer : Option String := none
  startDate : Option String := none
  endDate : Option String := none
  status : Option String := none
deriving DecidableEq

/-- parse_date as `create_job` calls it, on `data.get(key)`: a missing key
passes `None` to `strptime`, which raises `TypeError` — not the `ValueError`
the helper catches — so the error escapes (`Except.error`); a present string
that fails to parse is swallowed into `none`. -/
def parse_date_field : Option String → Except Unit (Option Nat)
  | none => .error ()
  | some s => .ok (parse_date s)

structure CreateJobResult where
  status : Nat
  record : Option JobRec
  store : Store
deriving DecidableEq

/-- POST /jobs: require truthy name and customer, parse both dates (an escaped
TypeError is the blanket 500 with rollback), validate a truthy status against
the closed set, then insert and answer 201 with the formatted row. -/
def create_job (st : Store) (data : JobInput) : CreateJobResult :=
  if !(truthy data.name && truthy data.customer) then
    { status := 400, record := none, store := st }
  else
    match parse_date_field data.startDate with
    | .error _ => { status := 500, record := none, store := st }
    | .ok sd =>
      match parse_date_field data.endDate with
      | .error _ => { status := 500, record := none, store := st }
      | .ok ed =>
        if truthy data.status &&
           !(data.status == some "In Progress" || data.status == some "Completed") then
          { status := 400, record := none, store := st }
        else
          let j : Job :=
            { id := st.nextJobId, name := data.name.getD "", customer := data.customer.getD "",
              start_date := sd, end_date := ed, status := data.status }
          let st' : Store :=
            { st with jobs := st.jobs ++ [j], nextJobId := st.nextJobId + 1 }
          { status := 201, record := some (format_job st' j), store := st' }

/-! ## DELETE /jobs/{id} and GET /jobs/{id}/workers -/

/-- DELETE /jobs/{id}. `Job.query.get_or_404` raises `NotFound`, a subclass of
`Exception`, which the handler's own `except Exception` swallows into the 500
answer — the 404 never reaches the client. On a hit the row is deleted and
the ORM nulls the children's foreign keys. -/
def delete_job (st : Store) (jid : Int) : Nat × Store :=
  match st.jobs.find? (fun j => j.id == jid) with
  | none => (500, st)
  | some _ =>
    (204,
      { st with
        jobs := st.jobs.filter (fun j => !(j.id == jid)),
        workers := st.workers.map
          (fun w => if w.job_id == some jid then { w with job_id := none } else w) })

/-- GET /jobs/{id}/workers: same `get_or_404` inside the same blanket except,
so an unknown id is a 500. -/
def get_job_workers (st : Store) (jid : Int) : Nat × List WorkerRec :=
  match st.jobs.find? (fun j => j.id == jid) with
  | none => (500, [])
  | some _ => (200, (st.workers.filter (fun w => w.job_id == some jid)).map format_worker)

/-! ## POST /workers and POST /workers/bulk -/

/-- The JSON body of one worker payload. -/
structure WorkerInput where
  name : Option String := none
  role : Option String := none
  jobId : Option Int := none
deriving DecidableEq

/-- POST /workers. -/
def create_worker (st : Store) (data : WorkerInput) : Nat × Option WorkerRec × Store :=
  if !(truthy data.name && truthy data.role) then (400, none, st)
  else
    let w : Worker :=
      { id := st.nextWorkerId, name := data.name.getD "", role := data.role.getD "",
        job_id := data.jobId }
    (201, some (format_worker w),
      { st with workers := st.workers ++ [w], nextWorkerId := st.nextWorkerId + 1 })

/-- One element of the bulk request array: a JSON object or anything else
(on which `data.get` raises `AttributeError`). -/
inductive BulkEntry where
  | obj : WorkerInput → BulkEntry
  | nonObj : BulkEntry
deriving DecidableEq

/-- The bulk request body: a JSON array or anything else. -/
inductive BulkBody where
  | arr : List BulkEntry → BulkBody
  | nonArr : BulkBody
deriving DecidableEq

/-- The handler's loop over the array, left to right: a non-object entry
raises `AttributeError`, caught by the blanket except as 500; an object with a
falsy name or role is the validation 400; otherwise the inputs are collected
in order. -/
def bulkScan : List BulkEntry → Except Nat (List WorkerInput)
  | [] => .ok []
  | .nonObj :: _ => .error 500
  | .obj w :: rest =>
    if truthy w.name && truthy w.role then
      match bulkScan rest with
      | .error c => .error c
      | .ok ws => .ok (w :: ws)
    else .error 400

/-- Worker rows the commit creates for the collected inputs, ids assigned in
order from the autoincrement counter. -/
def mkWorkers (startId : Int) : List WorkerInput → List Worker
  | [] => []
  | w :: rest =>
    { id := startId, name := w.name.getD "", role := w.role.getD "", job_id := w.jobId } ::
      mkWorkers (startId + 1) rest

structure BulkResult where
  status : Nat
  records : List WorkerRec
  store : Store
deriving DecidableEq

/-- POST /workers/bulk. A non-array body is the 400 format error. A failed
scan commits nothing (the session is never committed, or is rolled back), so
the store is unchanged; a clean scan commits every row and answers 201. -/
def bulk_create_workers (st : Store) (body : BulkBody) : BulkResult :=
  match body with
  | .nonArr => { status := 400, records := [], store := st }
  | .arr l =>
    match bulkScan l with
    | .error code => { status := code, records := [], store := st }
    | .ok ws =>
      let new := mkWorkers st.nextWorkerId ws
      { status := 201, records := new.map format_worker,
        store :=
          { st with workers := st.workers ++ new,
                    nextWorkerId := st.nextWorkerId + Int.ofNat new.length } }

/-! ## GET /workers -/

/-- Query-string parameters of GET /workers after Flask's conversion; `page`
and `limit` are `none` when missing or unconvertible, and the handler
defaults them to 1 and 10. -/
structure WorkersParams where
  name : Option String := none
  role : Option String := none
  jobId : Option Int := none
  page : Option Int := none
  limit : Option Int := none
deriving DecidableEq

/-- Worker filters: substring on name and role, exact on a nonzero jobId
(`if job_id := request.args.get('jobId', type=int)` skips 0 by truthiness). -/
def workerMatches (p : WorkersParams) (w : Worker) : Bool :=
  (match p.name with
   | none => true
   | some s => if s == "" then true else containsCI w.name s) &&
  (match p.role with
   | none => true
   | some s => if s == "" then true else containsCI w.role s) &&
  (match p.jobId with
   | none => true
   | some k => if k == 0 then true else w.job_id == some k)

def filterWorkers (st : Store) (p : WorkersParams) : List Worker :=
  st.workers.filter (workerMatches p)

structure WorkersResponse where
  status : Nat
  workers : List WorkerRec
  pagination : Option PageEnv
deriving DecidableEq

/-- GET /workers: pagination is unconditional, with defaults page=1 and
limit=10. -/
def get_workers (st : Store) (p : WorkersParams) : WorkersResponse :=
  let pg := p.page.getD 1
  let lim := p.limit.getD 10
  let pag := paginate (filterWorkers st p) pg lim
  { status := 200, workers := pag.items.map format_worker,
    pagination := some { page := pg, perPage := lim, total := pag.total, pages := pag.pages } }

/-! ## GET /stats -/

/-- The distinct statuses GROUP BY yields, with the dict comprehension's
`if status` dropping falsy keys (None and the empty string). -/
def statusKeys : List Job → List String
  | [] => []
  | j :: rest =>
    let ks := statusKeys rest
    match j.status with
    | none => ks
    | some s => if s = "" ∨ s ∈ ks then ks else s :: ks

/-- func.count over one status group. -/
def countStatus (jobs : List Job) (s : String) : Nat :=
  (jobs.filter (fun j => j.status == some s)).length

/-- The distinct roles GROUP BY yields; `dict(workers_by_role)` keeps every
key. -/
def roleKeys : List Worker → List String
  | [] => []
  | w :: rest =>
    let ks := roleKeys rest
    if w.role ∈ ks then ks else w.role :: ks

/-- func.count over one role group. -/
def countRole (ws : List Worker) (r : String) : Nat :=
  (ws.filter (fun w => w.role == r)).length

structure StatsResponse where
  status : Nat
  jobsTotal : Nat
  jobsByStatus : List (String × Nat)
  workersTotal : Nat
  workersByRole : List (String × Nat)
deriving DecidableEq

/-- GET /stats: totals straight from the tables, grouped counts keyed by the
distinct values present. -/
def get_stats (st : Store) : StatsResponse :=
  { status := 200
    jobsTotal := st.jobs.length
    jobsByStatus := (statusKeys st.jobs).map (fun s => (s, countStatus st.jobs s))
    workersTotal := st.workers.length
    workersByRole := (roleKeys st.workers).map (fun r => (r, countRole st.workers r)) }

/-! ## General lemmas about the pipeline -/

/-- Ceiling-division bound: a result set of `t` rows fits in `ceil(t/l)` pages
of `l` rows each. -/
theorem le_ceil_mul (t l : Nat) (hl : 0 < l) : t ≤ (t + l - 1) / l * l := by
  obtain ⟨l', rfl⟩ := Nat.exists_eq_add_of_lt hl
  have h := Nat.div_add_mod (t + (0 + l')) (0 + l' + 1)
  have h2 := Nat.mod_lt (t + (0 + l')) (y := 0 + l' + 1) (by omega)
  have h3 : t + (0 + l' + 1) - 1 = t + (0 + l') := by omega
  rw [h3]
  linarith [h, h2]

/-- What `paginate` guarantees when page and per_page are both at least 1 (so
neither clamp fires): the unsliced count, the ceiling page count, the slice
bound, and emptiness beyond the last page. -/
theorem paginate_spec {α : Type} (rows : List α) (pg lim : Int)
    (hp : 1 ≤ pg) (hl : 1 ≤ lim) :
    (paginate rows pg lim).total = rows.length ∧
    (paginate rows pg lim).pages = (rows.length + lim.toNat - 1) / lim.toNat ∧
    (paginate rows pg lim).items.length ≤ lim.toNat ∧
    ((paginate rows pg lim).pages < pg.toNat → (paginate rows pg lim).items = []) := by
  have hpc : ¬(pg < 1) := by omega
  have hlc : ¬(lim < 1) := by omega
  have hln : 1 ≤ lim.toNat := by omega
  have hpn : 1 ≤ pg.toNat := by omega
  have hpag : paginate rows pg lim =
      { items := (rows.drop ((pg.toNat - 1) * lim.toNat)).take lim.toNat,
        total := rows.length,
        pages := if rows.length = 0 then 0 else (rows.length + lim.toNat - 1) / lim.toNat } := by
    unfold paginate
    rw [if_neg hpc, if_neg hlc]
  rw [hpag]
  dsimp only
  refine ⟨rfl, ?_, List.length_take_le _ _, ?_⟩
  · by_cases h0 : rows.length = 0
    · rw [if_pos h0, h0]
      exact (Nat.div_eq_of_lt (by omega)).symm
    · rw [if_neg h0]
  · intro hbeyond
    have hle : rows.length ≤ (pg.toNat - 1) * lim.toNat := by
      by_cases h0 : rows.length = 0
      · omega
      · rw [if_neg h0] at hbeyond
        have h1 : rows.length ≤ (rows.length + lim.toNat - 1) / lim.toNat * lim.toNat :=
          le_ceil_mul _ _ (by omega)
        have h2 : (rows.length + lim.toNat - 1) / lim.toNat ≤ pg.toNat - 1 := by omega
        calc rows.length ≤ (rows.length + lim.toNat - 1) / lim.toNat * lim.toNat := h1
          _ ≤ (pg.toNat - 1) * lim.toNat := Nat.mul_le_mul_right _ h2
    rw [List.drop_eq_nil_of_le hle]
    simp

/-- Sorting on a key is a permutation. -/
theorem sortKey_perm {K : Type} [LinearOrder K] (key : Job → K) (d : Bool) (l : List Job) :
    (sortKey key d l).Perm l := by
  unfold sortKey
  split
  · exact List.perm_insertionSort _ l
  · exact List.perm_insertionSort _ l

/-- Sorting ascending on a key sorts by that key. -/
theorem sortKey_sorted_asc {K : Type} [LinearOrder K] (key : Job → K) (l : List Job) :
    (sortKey key false l).Sorted (fun a b => key a ≤ key b) := by
  have he : sortKey key false l =
      @List.insertionSort Job (fun a b => key a ≤ key b)
        (fun a b => inferInstanceAs (Decidable (key a ≤ key b))) l := by
    simp [sortKey]
  rw [he]
  exact @List.sorted_insertionSort Job (fun a b => key a ≤ key b)
    (fun a b => inferInstanceAs (Decidable (key a ≤ key b)))
    ⟨fun a b => le_total (key a) (key b)⟩ ⟨fun a b c h1 h2 => le_trans h1 h2⟩ l

/-- Sorting descending on a key sorts by the reversed key order. -/
theorem sortKey_sorted_desc {K : Type} [LinearOrder K] (key : Job → K) (l : List Job) :
    (sortKey key true l).Sorted (fun a b => key b ≤ key a) := by
  have he : sortKey key true l =
      @List.insertionSort Job (fun a b => key b ≤ key a)
        (fun a b => inferInstanceAs (Decidable (key b ≤ key a))) l := by
    simp [sortKey]
  rw [he]
  exact @List.sorted_insertionSort Job (fun a b => key b ≤ key a)
    (fun a b => inferInstanceAs (Decidable (key b ≤ key a)))
    ⟨fun a b => le_total (key b) (key a)⟩ ⟨fun a b c h1 h2 => le_trans h2 h1⟩ l

/-- Whatever the sort column and direction, ORDER BY permutes the rows. -/
theorem sortJobs_perm (c : String) (d : Bool) (l : List Job) : (sortJobs c d l).Perm l := by
  unfold sortJobs
  split_ifs <;> first
    | exact sortKey_perm _ _ _
    | exact List.Perm.refl l

/-- The ordered result set is a permutation of the filtered rows. -/
theorem sortedJobs_perm (st : Store) (p : JobsParams) :
    (sortedJobs st p).Perm (filterJobs st p) := by
  by_cases h : p.sortBy.getD "id" ∈ validSortCols
  · simp only [sortedJobs, if_pos h]
    exact sortJobs_perm _ _ _
  · simp only [sortedJobs, if_neg h]
    exact List.Perm.refl _

/-- Row count after ordering equals row count after filtering. -/
theorem length_sortedJobs (st : Store) (p : JobsParams) :
    (sortedJobs st p).length = (filterJobs st p).length :=
  (sortedJobs_perm st p).length_eq

/-! ## Claim theorems -/

/-- C1: the claim says POST /jobs with non-empty name and customer succeeds
with 201 even when the dates are absent, with nulls in the record. The code
disagrees on absent dates: `data.get('startDate')` is None, `strptime(None,…)`
raises TypeError, which `parse_date`'s `except ValueError` does not catch, so
the handler's blanket except answers 500 and rolls back. With present but
unparseable date strings the permissive behavior the claim describes does
hold (201, dates stored as absent). -/
theorem C1_create_job_no_dates_is_500 :
    create_job st0 { name := some "A", customer := some "C" } =
      { status := 500, record := none, store := st0 } ∧
    create_job st0 { name := some "A", customer := some "C",
                     startDate := some "not-a-date", endDate := some "2024-13-45" } =
      { status := 201,
        record := some { id := 1, name := "A", customer := "C", startDate := none,
                         endDate := none, status := none, workerCount := 0 },
        store := { jobs := [{ id := 1, name := "A", customer := "C", start_date := none,
                              end_date := none, status := none }],
                   workers := [], nextJobId := 2, nextWorkerId := 1 } } := by
  exact ⟨by decide, by decide⟩

/-- C2: the claim says DELETE /jobs/{id} and GET /jobs/{id}/workers answer 404
for an unknown id. In the code `get_or_404` raises NotFound, a subclass of
Exception, and each handler's own `except Exception` swallows it into the
500 answer; the store is indeed unchanged. Evaluated at the failing input:
id 1 on the empty store. -/
theorem C2_unknown_id_is_500 :
    delete_job st0 1 = (500, st0) ∧ get_job_workers st0 1 = (500, []) := by
  exact ⟨by decide, by decide⟩

/-- C3 (amended): GET /jobs applies pagination if and only if page and limit
are both present and both nonzero — Python's `if page and per_page` is a
truthiness test, so a negative value activates pagination too (the paginator
then clamps the effective page to 1), while absence, a non-integer value or 0
suppresses it; in the unpaginated case the body is the full ordered result
set and no pagination object. -/
theorem C3_pagination_iff_present_nonzero (st : Store) (p : JobsParams) :
    ((get_jobs st p).pagination.isSome ↔
      ∃ pg lim, p.page = some pg ∧ p.limit = some lim ∧ pg ≠ 0 ∧ lim ≠ 0) ∧
    ((get_jobs st p).pagination = none → (get_jobs st p).jobs = sortedJobs st p) := by
  rcases hp : p.page with _ | pg <;> rcases hl : p.limit with _ | lim <;>
    simp only [get_jobs, pageEnvOf, hp, hl] <;> simp
  by_cases hc : pg ≠ 0 ∧ lim ≠ 0
  · rw [if_pos hc]
    simp [hc.1, hc.2]
  · rw [if_neg hc]
    simp
    tauto

/-- C3 counterexample: page=-1 and limit=5 are present, and -1 is not
positive, so the claim demands the unpaginated shape with no pagination
object; the code paginates and returns an envelope echoing page=-1. -/
theorem C3_negative_page_still_paginates :
    (get_jobs st0 { page := some (-1), limit := some 5 }).pagination =
      some { page := -1, perPage := 5, total := 0, pages := 0 } ∧
    ¬((get_jobs st0 { page := some (-1), limit := some 5 }).pagination = none) := by
  exact ⟨by decide, by decide⟩

/-- C8: every GET /workers response carries a pagination envelope whose page
and perPage default to 1 and 10 when the parameters are absent, while GET
/jobs with page or limit absent carries no envelope and returns the full
result set. -/
theorem C8_workers_always_paginated (st : Store) (p : WorkersParams) (q : JobsParams) :
    (get_workers st p).status = 200 ∧
    (∃ env, (get_workers st p).pagination = some env ∧
      env.page = p.page.getD 1 ∧ env.perPage = p.limit.getD 10) ∧
    ((q.page = none ∨ q.limit = none) →
      (get_jobs st q).pagination = none ∧ (get_jobs st q).jobs = sortedJobs st q) := by
  refine ⟨rfl, ⟨_, rfl, rfl, rfl⟩, ?_⟩
  intro hq
  rcases hqp : q.page with _ | pg <;> rcases hql : q.limit with _ | lim <;>
    simp only [get_jobs, pageEnvOf, hqp, hql]
  · simp
  · simp
  · simp
  · rw [hqp, hql] at hq
    simp at hq

/-- C10: POST /workers/bulk with an empty array takes the list branch, the
loop never runs, the commit writes nothing: 201, an empty array body, and
the store unchanged. -/
theorem C10_bulk_empty_array (st : Store) :
    bulk_create_workers st (.arr []) = { status := 201, records := [], store := st } := by
  simp [bulk_create_workers, bulkScan, mkWorkers]

/-- Dropping a startAfter parameter whose string does not parse changes no
row's match verdict. -/
theorem jobMatches_drop_startAfter (p : JobsParams) (s : String)
    (hsa : p.startAfter = some s) (hp : parse_date s = none) (j : Job) :
    jobMatches p j = jobMatches { p with startAfter := none } j := by
  simp only [jobMatches, hsa, hp]
  cases h : s == "" <;> simp [h]

/-- Dropping an endBefore parameter whose string does not parse changes no
row's match verdict. -/
theorem jobMatches_drop_endBefore (p : JobsParams) (s : String)
    (hsa : p.endBefore = some s) (hp : parse_date s = none) (j : Job) :
    jobMatches p j = jobMatches { p with endBefore := none } j := by
  simp only [jobMatches, hsa, hp]
  cases h : s == "" <;> simp [h]

/-- GET /jobs answers identically with an unparseable startAfter and with no
startAfter at all. -/
theorem get_jobs_drop_startAfter (st : Store) (p : JobsParams) (s : String)
    (hsa : p.startAfter = some s) (hp : parse_date s = none) :
    get_jobs st p = get_jobs st { p with startAfter := none } := by
  have hf : filterJobs st p = filterJobs st { p with startAfter := none } := by
    simp only [filterJobs]
    exact List.filter_congr (fun j _ => jobMatches_drop_startAfter p s hsa hp j)
  have hs : sortedJobs st p = sortedJobs st { p with startAfter := none } := by
    simp only [sortedJobs]
    rw [hf]
  simp only [get_jobs]
  rw [hs]

/-- GET /jobs answers identically with an unparseable endBefore and with no
endBefore at all. -/
theorem get_jobs_drop_endBefore (st : Store) (p : JobsParams) (s : String)
    (hsa : p.endBefore = some s) (hp : parse_date s = none) :
    get_jobs st p = get_jobs st { p with endBefore := none } := by
  have hf : filterJobs st p = filterJobs st { p with endBefore := none } := by
    simp only [filterJobs]
    exact List.filter_congr (fun j _ => jobMatches_drop_endBefore p s hsa hp j)
  have hs : sortedJobs st p = sortedJobs st { p with endBefore := none } := by
    simp only [sortedJobs]
    rw [hf]
  simp only [get_jobs]
  rw [hs]

/-- C6: a startAfter or endBefore value `parse_date` rejects imposes no
constraint — the whole response equals the response to the same request
without that parameter — and the request still succeeds with 200. -/
theorem C6_malformed_date_filter_ignored (st : Store) (p : JobsParams) :
    (get_jobs st p).status = 200 ∧
    (∀ s, p.startAfter = some s → parse_date s = none →
      get_jobs st p = get_jobs st { p with startAfter := none }) ∧
    (∀ s, p.endBefore = some s → parse_date s = none →
      get_jobs st p = get_jobs st { p with endBefore := none }) :=
  ⟨rfl, fun s hs hp => get_jobs_drop_startAfter st p s hs hp,
    fun s hs hp => get_jobs_drop_endBefore st p s hs hp⟩

/-! ## Bulk creation: scan characterization -/

/-- Does the bulk loop accept this entry without raising or rejecting? -/
def entryValidB : BulkEntry → Bool
  | .obj w => truthy w.name && truthy w.role
  | .nonObj => false

/-- The worker payloads of the array's object entries, in order. -/
def entryInputs : List BulkEntry → List WorkerInput :=
  List.filterMap (fun e => match e with | .obj w => some w | .nonObj => none)

/-- A scan of all-valid entries collects exactly the payloads. -/
theorem bulkScan_ok (l : List BulkEntry) (h : ∀ e ∈ l, entryValidB e) :
    bulkScan l = .ok (entryInputs l) := by
  induction l with
  | nil => rfl
  | cons e rest ih =>
    have he := h e (List.mem_cons_self e rest)
    have hrest : ∀ x ∈ rest, entryValidB x := fun x hx => h x (List.mem_cons_of_mem _ hx)
    cases e with
    | nonObj => simp [entryValidB] at he
    | obj w =>
      simp only [entryValidB] at he
      simp [bulkScan, he, entryInputs, ih hrest]

/-- The status decided by the first offending entry: 500 for a non-object
(the AttributeError path), 400 for an object failing validation. -/
def offendCode : BulkEntry → Nat
  | .nonObj => 500
  | .obj _ => 400

/-- A scan whose first offending entry is `e` fails with `offendCode e`. -/
theorem bulkScan_err (l : List BulkEntry) (e : BulkEntry)
    (h : l.find? (fun x => !entryValidB x) = some e) :
    bulkScan l = .error (offendCode e) := by
  induction l with
  | nil => simp [List.find?] at h
  | cons a rest ih =>
    by_cases ha : entryValidB a
    · rw [List.find?_cons_of_neg _ (by simp [ha])] at h
      cases a with
      | nonObj => simp [entryValidB] at ha
      | obj w =>
        simp only [entryValidB] at ha
        simp [bulkScan, ha, ih h]
    · rw [List.find?_cons_of_pos _ (by simp [ha])] at h
      have hae : a = e := by injection h
      subst hae
      cases a with
      | nonObj => simp [bulkScan, offendCode]
      | obj w =>
        simp only [entryValidB] at ha
        simp [bulkScan, ha, offendCode]

/-- C5 (amended): a non-array body is 400 with nothing persisted; an array
of valid object entries is persisted whole with 201; an array with an
offending entry persists nothing and returns no records, and the status is
decided by the first offending entry scanned left to right — 400 when it is
an object failing validation, but 500 (not the claimed 400) when it is not
an object, because `data.get` raises AttributeError into the blanket
except. -/
theorem C5_bulk_all_or_nothing (st : Store) (l : List BulkEntry) :
    bulk_create_workers st .nonArr = { status := 400, records := [], store := st } ∧
    ((∀ e ∈ l, entryValidB e) →
      bulk_create_workers st (.arr l) =
        { status := 201,
          records := (mkWorkers st.nextWorkerId (entryInputs l)).map format_worker,
          store := { st with
            workers := st.workers ++ mkWorkers st.nextWorkerId (entryInputs l),
            nextWorkerId := st.nextWorkerId +
              Int.ofNat (mkWorkers st.nextWorkerId (entryInputs l)).length } }) ∧
    (∀ e, l.find? (fun x => !entryValidB x) = some e →
      bulk_create_workers st (.arr l) =
        { status := offendCode e, records := [], store := st }) := by
  refine ⟨rfl, ?_, ?_⟩
  · intro h
    simp [bulk_create_workers, bulkScan_ok l h]
  · intro e he
    simp [bulk_create_workers, bulkScan_err l e he]

/-- C5 counterexample: the body `[42]` is an array whose single entry is not
an object; the claim demands 400, the code answers 500 (and persists
nothing). -/
theorem C5_non_object_entry_is_500 :
    (bulk_create_workers st0 (.arr [.nonObj])).status = 500 ∧
    ¬((bulk_create_workers st0 (.arr [.nonObj])).status = 400) ∧
    (bulk_create_workers st0 (.arr [.nonObj])).store = st0 := by
  exact ⟨by decide, by decide, by decide⟩

/-! ## Stats lemmas -/

/-- Looking a key up in a key-to-value table built over a key list. -/
theorem lookup_map_keys (keys : List String) (f : String → Nat) (s : String) :
    List.lookup s (keys.map fun k => (k, f k)) =
      (if s ∈ keys then some (f s) else none) := by
  induction keys with
  | nil => simp
  | cons k ks ih =>
    simp only [List.map_cons, List.lookup_cons]
    by_cases h : s = k
    · subst h
      simp
    · have hbeq : (s == k) = false := by simp [h]
      simp [hbeq, ih, h]

/-- Membership in the status key set: exactly the non-falsy statuses some job
carries. -/
theorem mem_statusKeys (jobs : List Job) (s : String) :
    s ∈ statusKeys jobs ↔ (s ≠ "" ∧ ∃ j ∈ jobs, j.status = some s) := by
  induction jobs with
  | nil => simp [statusKeys]
  | cons j rest ih =>
    cases hst : j.status with
    | none =>
      simp only [statusKeys, hst]
      rw [ih]
      constructor
      · rintro ⟨hne, j', hj', hs'⟩
        exact ⟨hne, j', List.mem_cons_of_mem _ hj', hs'⟩
      · rintro ⟨hne, j', hj', hs'⟩
        rcases List.mem_cons.mp hj' with rfl | hmem
        · rw [hst] at hs'
          cases hs'
        · exact ⟨hne, j', hmem, hs'⟩
    | some t =>
      simp only [statusKeys, hst]
      split_ifs with hc
      · rw [ih]
        constructor
        · rintro ⟨hne, j', hj', hs'⟩
          exact ⟨hne, j', List.mem_cons_of_mem _ hj', hs'⟩
        · rintro ⟨hne, j', hj', hs'⟩
          rcases List.mem_cons.mp hj' with rfl | hmem
          · rw [hst] at hs'
            injection hs' with h2
            subst h2
            rcases hc with hc | hc
            · exact absurd hc hne
            · exact ih.mp hc
          · exact ⟨hne, j', hmem, hs'⟩
      · push_neg at hc
        simp only [List.mem_cons]
        constructor
        · rintro (rfl | hks)
          · exact ⟨hc.1, j, Or.inl rfl, hst⟩
          · rcases ih.mp hks with ⟨hne, j', hj', hs'⟩
            exact ⟨hne, j', Or.inr hj', hs'⟩
        · rintro ⟨hne, j', hj', hs'⟩
          rcases hj' with rfl | hmem
          · rw [hst] at hs'
            injection hs' with h2
            exact Or.inl h2.symm
          · exact Or.inr (ih.mpr ⟨hne, j', hmem, hs'⟩)

/-- A status is counted positively iff some job carries it. -/
theorem countStatus_pos_iff (jobs : List Job) (s : String) :
    0 < countStatus jobs s ↔ ∃ j ∈ jobs, j.status = some s := by
  unfold countStatus
  rw [← List.countP_eq_length_filter, List.countP_pos_iff]
  simp

/-- Job input that create_job accepts — `if status and status not in [...]`
skips validation for the falsy empty string, so the row is stored with
status equal to the empty string (the dates are present-but-unparseable
strings, which the permissive path stores as absent). -/
def inC9 : JobInput :=
  { name := some "A", customer := some "C", startDate := some "x",
    endDate := some "x", status := some "" }

/-- The store reached by POSTing `inC9` to the empty database. -/
def stC9bad : Store := (create_job st0 inC9).store

/-- C9 counterexample: the claim quantifies over every store state, but at the
store create_job itself reaches with status equal to the empty string — a
non-null status — the creation succeeds with 201, the status is present on
exactly one job and counted in jobs.total, yet the stats dict comprehension's
`if status` filter drops the falsy key, so byStatus has no entry for it. -/
theorem C9_empty_status_dropped :
    (create_job st0 inC9).status = 201 ∧
    stC9bad.jobs.length = 1 ∧
    countStatus stC9bad.jobs "" = 1 ∧
    (get_stats stC9bad).jobsTotal = 1 ∧
    List.lookup "" (get_stats stC9bad).jobsByStatus = none := by
  exact ⟨by decide, by decide, by decide, by decide, by decide⟩

/-- C9 (amended): for every store, /stats reports jobs.total as the count of
all jobs (those with no status included), and byStatus maps exactly each
distinct non-falsy status value present in the data to its count — looking a
non-empty status up yields its count when at least one job carries it and
nothing when none does — while the empty-string status, though non-null and
storable through create_job's truthiness gap, is always dropped from
byStatus even when present (it still raises the total). -/
theorem C9_stats_by_status_amended (st : Store) :
    (get_stats st).jobsTotal = st.jobs.length ∧
    (∀ s : String, s ≠ "" →
      List.lookup s (get_stats st).jobsByStatus =
        (if countStatus st.jobs s = 0 then none else some (countStatus st.jobs s))) ∧
    List.lookup "" (get_stats st).jobsByStatus = none := by
  have hlk : ∀ s : String, List.lookup s (get_stats st).jobsByStatus =
      (if s ∈ statusKeys st.jobs then some (countStatus st.jobs s) else none) := by
    intro s
    simp only [get_stats]
    exact lookup_map_keys _ _ s
  refine ⟨rfl, ?_, ?_⟩
  · intro s hne
    rw [hlk]
    by_cases hmem : s ∈ statusKeys st.jobs
    · rw [if_pos hmem]
      have h2 : 0 < countStatus st.jobs s :=
        (countStatus_pos_iff _ _).mpr ((mem_statusKeys _ _).mp hmem).2
      rw [if_neg (by omega)]
    · rw [if_neg hmem]
      by_cases hz : countStatus st.jobs s = 0
      · rw [if_pos hz]
      · exfalso
        have h1 : ∃ j ∈ st.jobs, j.status = some s :=
          (countStatus_pos_iff _ _).mp (by omega)
        exact hmem ((mem_statusKeys _ _).mpr ⟨hne, h1⟩)
  · rw [hlk]
    rw [if_neg (fun hmem => ((mem_statusKeys _ _).mp hmem).1 rfl)]

/-! ## Sorting: the per-column order relations -/

/-- The ascending order of one sortable column, NULLs first, as SQLite orders
an ORDER BY over that column. -/
def colAsc (c : String) : Job → Job → Prop :=
  if c = "name" then fun a b => a.name ≤ b.name
  else if c = "customer" then fun a b => a.customer ≤ b.customer
  else if c = "start_date" then fun a b => sdKey a ≤ sdKey b
  else if c = "end_date" then fun a b => edKey a ≤ edKey b
  else if c = "status" then fun a b => stKey a ≤ stKey b
  else fun _ _ => True

/-- Sorting by a valid column ascending yields a list sorted by that
column's order. -/
theorem sortJobs_sorted_asc (c : String) (hc : c ∈ validSortCols) (l : List Job) :
    (sortJobs c false l).Sorted (colAsc c) := by
  have hc' : c = "name" ∨ c = "customer" ∨ c = "start_date" ∨ c = "end_date" ∨
      c = "status" := by simpa [validSortCols] using hc
  rcases hc' with rfl | rfl | rfl | rfl | rfl
  · have h1 : sortJobs "name" false l = sortKey (fun j => j.name) false l := by
      simp [sortJobs]
    have h2 : colAsc "name" = fun a b => a.name ≤ b.name := by simp [colAsc]
    rw [h1, h2]
    exact sortKey_sorted_asc _ _
  · have h1 : sortJobs "customer" false l = sortKey (fun j => j.customer) false l := by
      simp [sortJobs]
    have h2 : colAsc "customer" = fun a b => a.customer ≤ b.customer := by simp [colAsc]
    rw [h1, h2]
    exact sortKey_sorted_asc _ _
  · have h1 : sortJobs "start_date" false l = sortKey sdKey false l := by
      simp [sortJobs]
    have h2 : colAsc "start_date" = fun a b => sdKey a ≤ sdKey b := by simp [colAsc]
    rw [h1, h2]
    exact sortKey_sorted_asc _ _
  · have h1 : sortJobs "end_date" false l = sortKey edKey false l := by
      simp [sortJobs]
    have h2 : colAsc "end_date" = fun a b => edKey a ≤ edKey b := by simp [colAsc]
    rw [h1, h2]
    exact sortKey_sorted_asc _ _
  · have h1 : sortJobs "status" false l = sortKey stKey false l := by
      simp [sortJobs]
    have h2 : colAsc "status" = fun a b => stKey a ≤ stKey b := by simp [colAsc]
    rw [h1, h2]
    exact sortKey_sorted_asc _ _

/-- Sorting by a valid column descending yields a list sorted by the reversed
column order. -/
theorem sortJobs_sorted_desc (c : String) (hc : c ∈ validSortCols) (l : List Job) :
    (sortJobs c true l).Sorted (fun a b => colAsc c b a) := by
  have hc' : c = "name" ∨ c = "customer" ∨ c = "start_date" ∨ c = "end_date" ∨
      c = "status" := by simpa [validSortCols] using hc
  rcases hc' with rfl | rfl | rfl | rfl | rfl
  · have h1 : sortJobs "name" true l = sortKey (fun j => j.name) true l := by
      simp [sortJobs]
    have h2 : colAsc "name" = fun a b => a.name ≤ b.name := by simp [colAsc]
    rw [h1, h2]
    exact sortKey_sorted_desc _ _
  · have h1 : sortJobs "customer" true l = sortKey (fun j => j.customer) true l := by
      simp [sortJobs]
    have h2 : colAsc "customer" = fun a b => a.customer ≤ b.customer := by simp [colAsc]
    rw [h1, h2]
    exact sortKey_sorted_desc _ _
  · have h1 : sortJobs "start_date" true l = sortKey sdKey true l := by
      simp [sortJobs]
    have h2 : colAsc "start_date" = fun a b => sdKey a ≤ sdKey b := by simp [colAsc]
    rw [h1, h2]
    exact sortKey_sorted_desc _ _
  · have h1 : sortJobs "end_date" true l = sortKey edKey true l := by
      simp [sortJobs]
    have h2 : colAsc "end_date" = fun a b => edKey a ≤ edKey b := by simp [colAsc]
    rw [h1, h2]
    exact sortKey_sorted_desc _ _
  · have h1 : sortJobs "status" true l = sortKey stKey true l := by
      simp [sortJobs]
    have h2 : colAsc "status" = fun a b => stKey a ≤ stKey b := by simp [colAsc]
    rw [h1, h2]
    exact sortKey_sorted_desc _ _

/-- C4: with a store whose rows are id-ascending (as SQLite's scan order is),
a GET /jobs whose sortBy is absent or not one of the five known columns is
not rejected — still 200 — and its matching rows keep id-ascending order;
with a valid sortBy the matching rows are a permutation of the filtered set
ordered by that column, descending exactly when order=desc. -/
theorem C4_sorting_contract (st : Store) (p : JobsParams)
    (hsorted : st.jobs.Pairwise (fun a b => a.id < b.id)) :
    (get_jobs st p).status = 200 ∧
    (p.sortBy.getD "id" ∉ validSortCols →
      sortedJobs st p = filterJobs st p ∧
      (sortedJobs st p).Pairwise (fun a b => a.id < b.id)) ∧
    (∀ c, p.sortBy = some c → c ∈ validSortCols →
      (sortedJobs st p).Perm (filterJobs st p) ∧
      (p.order ≠ some "desc" → (sortedJobs st p).Sorted (colAsc c)) ∧
      (p.order = some "desc" → (sortedJobs st p).Sorted (fun a b => colAsc c b a))) := by
  refine ⟨rfl, ?_, ?_⟩
  · intro hnot
    have heq : sortedJobs st p = filterJobs st p := by
      simp only [sortedJobs, if_neg hnot]
    refine ⟨heq, ?_⟩
    rw [heq]
    exact hsorted.filter _
  · intro c hsb hc
    have hgetD : p.sortBy.getD "id" = c := by rw [hsb]; rfl
    have hsj : sortedJobs st p = sortJobs c (p.order == some "desc") (filterJobs st p) := by
      simp only [sortedJobs, hgetD, if_pos hc]
    refine ⟨?_, ?_, ?_⟩
    · rw [hsj]
      exact sortJobs_perm _ _ _
    · intro hord
      have hdesc : (p.order == some "desc") = false := by simp [hord]
      rw [hsj, hdesc]
      exact sortJobs_sorted_asc c hc _
    · intro hord
      have hdesc : (p.order == some "desc") = true := by simp [hord]
      rw [hsj, hdesc]
      exact sortJobs_sorted_desc c hc _

/-- A three-job store with ascending ids and mixed start dates (one NULL). -/
def stC4 : Store :=
  { jobs :=
      [{ id := 1, name := "B", customer := "X", start_date := some 20240101,
         end_date := none, status := some "Completed" },
       { id := 2, name := "A", customer := "Y", start_date := none,
         end_date := none, status := some "In Progress" },
       { id := 3, name := "C", customer := "Z", start_date := some 20230101,
         end_date := none, status := none }],
    workers := [], nextJobId := 4, nextWorkerId := 1 }

/-- C4 witness: the id-ascending hypothesis, a valid sortBy and an invalid
one are all discharged on a concrete store. -/
theorem C4_sorting_witness :
    (get_jobs stC4 { sortBy := some "start_date" }).status = 200 ∧
    (sortedJobs stC4 { sortBy := some "start_date" }).Perm
      (filterJobs stC4 { sortBy := some "start_date" }) ∧
    (sortedJobs stC4 { sortBy := some "start_date" }).Sorted (colAsc "start_date") ∧
    sortedJobs stC4 { sortBy := some "bogus" } = filterJobs stC4 { sortBy := some "bogus" } := by
  have h := C4_sorting_contract stC4 { sortBy := some "start_date" } (by decide)
  have h2 := C4_sorting_contract stC4 { sortBy := some "bogus" } (by decide)
  exact ⟨h.1, (h.2.2 "start_date" rfl (by decide)).1,
    (h.2.2 "start_date" rfl (by decide)).2.1 (by decide),
    (h2.2.1 (by decide)).1⟩

/-- C7: on any paginated listing — GET /jobs with page ≥ 1 and limit ≥ 1
supplied, and GET /workers with effective page ≥ 1 and limit ≥ 1 — the
envelope's total is the count of rows matching the filters before slicing,
pages is ceil(total/limit), the item list never exceeds limit entries, and a
page beyond the last yields an empty item list with the same total and pages
and no error. -/
theorem C7_pagination_envelope (st : Store) (pJ : JobsParams) (pW : WorkersParams)
    (pg lim : Int)
    (hpg : pJ.page = some pg) (hlim : pJ.limit = some lim)
    (hpg1 : 1 ≤ pg) (hlim1 : 1 ≤ lim)
    (hpgW : 1 ≤ pW.page.getD 1) (hlimW : 1 ≤ pW.limit.getD 10) :
    (∃ env, (get_jobs st pJ).pagination = some env ∧
      env.page = pg ∧ env.perPage = lim ∧
      env.total = (filterJobs st pJ).length ∧
      env.pages = (env.total + lim.toNat - 1) / lim.toNat ∧
      (get_jobs st pJ).jobs.length ≤ lim.toNat ∧
      (env.pages < pg.toNat → (get_jobs st pJ).jobs = [])) ∧
    (∃ env, (get_workers st pW).pagination = some env ∧
      env.page = pW.page.getD 1 ∧ env.perPage = pW.limit.getD 10 ∧
      env.total = (filterWorkers st pW).length ∧
      env.pages = (env.total + (pW.limit.getD 10).toNat - 1) / (pW.limit.getD 10).toNat ∧
      (get_workers st pW).workers.length ≤ (pW.limit.getD 10).toNat ∧
      (env.pages < (pW.page.getD 1).toNat → (get_workers st pW).workers = [])) := by
  constructor
  · have hcond : pg ≠ 0 ∧ lim ≠ 0 := ⟨by omega, by omega⟩
    have hjobs : (get_jobs st pJ).jobs = (paginate (sortedJobs st pJ) pg lim).items := by
      simp only [get_jobs, pageEnvOf, hpg, hlim, if_pos hcond]
    have hpagn : (get_jobs st pJ).pagination =
        some { page := pg, perPage := lim,
               total := (paginate (sortedJobs st pJ) pg lim).total,
               pages := (paginate (sortedJobs st pJ) pg lim).pages } := by
      simp only [get_jobs, pageEnvOf, hpg, hlim, if_pos hcond]
    obtain ⟨ht, hpp, hlen, hbey⟩ := paginate_spec (sortedJobs st pJ) pg lim hpg1 hlim1
    refine ⟨_, hpagn, rfl, rfl, ?_, ?_, ?_, ?_⟩
    · dsimp only
      rw [ht, length_sortedJobs]
    · dsimp only
      rw [hpp, ht]
    · rw [hjobs]
      exact hlen
    · intro hb
      rw [hjobs]
      exact hbey hb
  · have hworkers : (get_workers st pW).workers =
        (paginate (filterWorkers st pW) (pW.page.getD 1) (pW.limit.getD 10)).items.map
          format_worker := rfl
    have hpagn : (get_workers st pW).pagination =
        some { page := pW.page.getD 1, perPage := pW.limit.getD 10,
               total := (paginate (filterWorkers st pW) (pW.page.getD 1)
                 (pW.limit.getD 10)).total,
               pages := (paginate (filterWorkers st pW) (pW.page.getD 1)
                 (pW.limit.getD 10)).pages } := rfl
    obtain ⟨ht, hpp, hlen, hbey⟩ :=
      paginate_spec (filterWorkers st pW) (pW.page.getD 1) (pW.limit.getD 10) hpgW hlimW
    refine ⟨_, hpagn, rfl, rfl, ?_, ?_, ?_, ?_⟩
    · dsimp only
      rw [ht]
    · dsimp only
      rw [hpp, ht]
    · rw [hworkers, List.length_map]
      exact hlen
    · intro hb
      rw [hworkers, hbey hb]
      rfl

def pJ7 : JobsParams := { page := some 1, limit := some 10 }

def pW7 : WorkersParams := {}

/-- C7 witness: the envelope contract instantiated on the empty store with
page=1, limit=10 for jobs and the worker defaults. -/
theorem C7_pagination_witness :
    (∃ env, (get_jobs st0 pJ7).pagination = some env ∧
      env.page = 1 ∧ env.perPage = 10 ∧
      env.total = (filterJobs st0 pJ7).length ∧
      env.pages = (env.total + 10 - 1) / 10 ∧
      (get_jobs st0 pJ7).jobs.length ≤ 10 ∧
      (env.pages < 1 → (get_jobs st0 pJ7).jobs = [])) ∧
    (∃ env, (get_workers st0 pW7).pagination = some env ∧
      env.page = 1 ∧ env.perPage = 10 ∧
      env.total = (filterWorkers st0 pW7).length ∧
      env.pages = (env.total + 10 - 1) / 10 ∧
      (get_workers st0 pW7).workers.length ≤ 10 ∧
      (env.pages < 1 → (get_workers st0 pW7).workers = [])) :=
  C7_pagination_envelope st0 pJ7 pW7 1 10 rfl rfl (by decide) (by decide)
    (by decide) (by decide)
